import Mathlib

/-!
Verification of `homework_week1.py`: a chunked CSV-to-Postgres loader
(`load_taxi_data`, `load_zones_data`) followed by fixed analytical SQL
queries.  The loader and the two queries the claims concern are embedded
below as executable Lean functions; the pandas / SQL library behaviour the
script relies on (`read_csv` chunking, `to_sql` modes and index handling,
SQL NULL semantics, aggregate and ordering semantics) is modelled at the
granularity the script observes it.
-/

namespace DeZoom

/-- A Python exception as far as the loader's control flow distinguishes
them: `StopIteration`, raised by `next` on an exhausted iterator and caught
by the `except StopIteration` arm (line 54 of homework_week1.py), versus
every other exception, which no handler in the script catches. -/
inductive PyExc where
  | stopIteration
  | other (msg : String)
deriving DecidableEq, Repr

/-- The `if_exists` mode of a pandas `DataFrame.to_sql` call. -/
inductive WriteMode where
  | replace
  | append
deriving DecidableEq, Repr

/-- One `to_sql` call observed against the database: its `if_exists` mode
and the number of data rows it inserts. -/
structure WriteEvent where
  mode : WriteMode
  rows : ℕ
deriving DecidableEq, Repr

/-- A database table: column names and rows.  Each row is the optional
value of the pandas index column (present exactly when the writing `to_sql`
used `index=True`) paired with the CSV row it came from. -/
structure Table (α : Type) where
  columns : List String
  rows : List (Option ℕ × α)
deriving DecidableEq, Repr

/-- pandas `DataFrame.to_sql`: writes the data frame `df` (pandas row
indices paired with rows) to the named table; `replace` drops any prior
table and creates a fresh one, `append` adds to the existing table
(creating it when absent).  `index` mirrors the `index=` keyword: when
true, the pandas index is stored as an extra leading `"index"` column. -/
def to_sql {α : Type} (mode : WriteMode) (index : Bool) (cols : List String)
    (df : List (ℕ × α)) (prior : Option (Table α)) : Table α :=
  let newCols := if index then "index" :: cols else cols
  let newRows := df.map (fun p => (if index then some p.1 else none, p.2))
  match mode, prior with
  | .replace, _ => ⟨newCols, newRows⟩
  | .append, none => ⟨newCols, newRows⟩
  | .append, some t => ⟨t.columns, t.rows ++ newRows⟩

/-- Fuel-bounded chunking: splits `l` into consecutive blocks of `C`
elements (the final block possibly shorter).  Any `fuel ≥ l.length`
suffices when `0 < C`. -/
def chunksOfAux {α : Type} (C : ℕ) : ℕ → List α → List (List α)
  | 0, _ => []
  | fuel + 1, l =>
    if l.isEmpty then [] else l.take C :: chunksOfAux C fuel (l.drop C)

/-- The chunk stream `pd.read_csv(file, iterator=True, chunksize=C)` yields
for a CSV whose data rows are `l`: consecutive blocks of `C` rows.  A
header-only CSV (no data rows) yields a single empty chunk: pandas'
first-chunk handling returns an empty frame with the header's columns from
the first read of an empty source instead of raising `StopIteration`. -/
def pdChunks {α : Type} (C : ℕ) (l : List α) : List (List α) :=
  if l.isEmpty then [[]] else chunksOfAux C l.length l

/-- State accumulated by one run of `load_taxi_data`: the target table, the
`to_sql` write events in order, how many per-chunk elapsed-time progress
lines (line 52) were printed, and whether the finishing message (line 55)
was printed. -/
structure RunState (α : Type) where
  table : Table α
  writes : List WriteEvent
  progressLines : ℕ
  finished : Bool
deriving DecidableEq, Repr

/-- The `while True` loop of `load_taxi_data` (lines 39-56).  `nexts` is
the stream of outcomes of the remaining `next(df_iter)` calls together with
the per-chunk datetime conversion: a chunk of converted rows, or the
message of a raised non-`StopIteration` exception (CSV read error or
conversion failure); when the stream is exhausted `next` raises
`StopIteration`.  `writeFault k` is the error raised by the k-th `to_sql`
call of the run, if any (database failures are never `StopIteration`).
The `except StopIteration` arm turns exhaustion into a normal finish with
the finishing message; every other exception propagates to the caller. -/
def loadLoop {α : Type} (cols : List String) (writeFault : ℕ → Option String) :
    List (Except String (List (ℕ × α))) → ℕ → RunState α →
      Except PyExc (RunState α)
  | [], _, st => .ok { st with finished := true }
  | .error msg :: _, _, _ => .error (.other msg)
  | .ok chunk :: rest, k, st =>
    match writeFault k with
    | some msg => .error (.other msg)
    | none =>
      loadLoop cols writeFault rest (k + 1)
        { st with
          table := to_sql .append true cols chunk (some st.table)
          writes := st.writes ++ [⟨.append, chunk.length⟩]
          progressLines := st.progressLines + 1 }

/-- `load_taxi_data` (lines 20-56) over an explicit stream of `next`
outcomes and injected write faults.  The first `next` (line 26) is outside
any handler, as are the schema-creating
`df.head(n=0).to_sql(..., if_exists='replace')` (line 33, the 0-th `to_sql`
call, inserting no rows) and the first-chunk append (line 36, the 1-st
call); both writes use the pandas default `index=True`. -/
def load_taxi_data {α : Type} (cols : List String)
    (nexts : List (Except String (List (ℕ × α))))
    (writeFault : ℕ → Option String)
    (prior : Option (Table α)) : Except PyExc (RunState α) :=
  match nexts with
  | [] => .error .stopIteration
  | .error msg :: _ => .error (.other msg)
  | .ok first :: rest =>
    match writeFault 0 with
    | some msg => .error (.other msg)
    | none =>
      let t0 := to_sql .replace true cols ([] : List (ℕ × α)) prior
      match writeFault 1 with
      | some msg => .error (.other msg)
      | none =>
        let t1 := to_sql .append true cols first (some t0)
        loadLoop cols writeFault rest 2
          { table := t1
            writes := [⟨.replace, 0⟩, ⟨.append, first.length⟩]
            progressLines := 0
            finished := false }

/-- No injected faults: every `to_sql` call succeeds. -/
def noFault : ℕ → Option String := fun _ => none

/-- The chunk stream a fault-free read of a CSV with data rows `csv`
produces: pandas pairs each row with its running `RangeIndex` position
(continuing across chunks) and yields chunks of `C` rows. -/
def csvNexts {α : Type} (C : ℕ) (csv : List α) :
    List (Except String (List (ℕ × α))) :=
  (pdChunks C csv.enum).map .ok

/-- A fault-free run of `load_taxi_data` over the CSV with data rows `csv`,
chunk size `C` and prior state `prior` of the target table. -/
def runLoadTaxi {α : Type} (C : ℕ) (cols : List String) (csv : List α)
    (prior : Option (Table α)) : Except PyExc (RunState α) :=
  load_taxi_data cols (csvNexts C csv) noFault prior

/-- The row count of the target table after a run, `none` when the run
raised. -/
def runRowCount {α : Type} (r : Except PyExc (RunState α)) : Option ℕ :=
  r.toOption.map (fun st => st.table.rows.length)

/-- The list of `to_sql` write events of a run, `none` when the run
raised. -/
def runWrites {α : Type} (r : Except PyExc (RunState α)) :
    Option (List WriteEvent) :=
  r.toOption.map RunState.writes

/-- `load_zones_data` (lines 59-63): reads the whole CSV into one frame and
writes it with `if_exists='replace'` and `index=False`. -/
def load_zones_data {α : Type} (cols : List String) (csv : List α)
    (prior : Option (Table α)) : Table α :=
  to_sql .replace false cols csv.enum prior

/-- A non-NULL SQL timestamp value at the resolution the report queries
need: the calendar day (as a day number since 1970-01-01) and the time of
day in microseconds, ordered lexicographically.  `DATE(ts)` is the `day`
field. -/
structure Timestamp where
  day : ℤ
  usOfDay : ℕ
deriving DecidableEq, Repr

/-- Order on timestamps: earlier day, or same day and earlier time. -/
def Timestamp.le (a b : Timestamp) : Bool :=
  decide (a.day < b.day) ||
    (decide (a.day = b.day) && decide (a.usOfDay ≤ b.usOfDay))

/-- Strict order on timestamps. -/
def Timestamp.lt (a b : Timestamp) : Bool :=
  decide (a.day < b.day) ||
    (decide (a.day = b.day) && decide (a.usOfDay < b.usOfDay))

/-- A row of the `green_taxi_trips` table as the two modelled queries read
it.  Every column is nullable: the schema is inferred by pandas from the
CSV (missing cells become NaN / NaT, stored as SQL NULL) and carries no
NOT NULL constraint. -/
structure Trip where
  lpep_pickup_datetime : Option Timestamp
  lpep_dropoff_datetime : Option Timestamp
  trip_distance : Option ℚ
deriving DecidableEq, Repr

/-- SQL `x >= c` on a nullable timestamp column: TRUE exactly for non-NULL
`x` with `x ≥ c` (a NULL comparison is unknown, hence not TRUE). -/
def tsGe (x : Option Timestamp) (c : Timestamp) : Bool :=
  match x with
  | none => false
  | some v => Timestamp.le c v

/-- SQL `x < c` on a nullable timestamp column. -/
def tsLt (x : Option Timestamp) (c : Timestamp) : Bool :=
  match x with
  | none => false
  | some v => Timestamp.lt v c

/-- The date literal '2019-10-01' (midnight), day 18170 since 1970-01-01. -/
def d20191001 : Timestamp := ⟨18170, 0⟩

/-- The date literal '2019-11-01' (midnight), day 18201 since 1970-01-01. -/
def d20191101 : Timestamp := ⟨18201, 0⟩

/-- The single result row of query 1: five distance-bucket counts. -/
structure Q1Result where
  trips_up_to_1_mile : ℕ
  trips_1_to_3_miles : ℕ
  trips_3_to_7_miles : ℕ
  trips_7_to_10_miles : ℕ
  trips_over_10_miles : ℕ
deriving DecidableEq, Repr

/-- The WHERE clause of query 1 (lines 76-77): pickup on or after
2019-10-01 and dropoff before 2019-11-01. -/
def q1Filter (t : Trip) : Bool :=
  tsGe t.lpep_pickup_datetime d20191001 &&
    tsLt t.lpep_dropoff_datetime d20191101

/-- SQL `trip_distance <= c` on the nullable distance column; NULL
satisfies no comparison. -/
def distLe (x : Option ℚ) (c : ℚ) : Bool :=
  match x with
  | none => false
  | some v => decide (v ≤ c)

/-- SQL `trip_distance > lo AND trip_distance <= hi`. -/
def distGtLe (x : Option ℚ) (lo hi : ℚ) : Bool :=
  match x with
  | none => false
  | some v => decide (lo < v) && decide (v ≤ hi)

/-- SQL `trip_distance > c`. -/
def distGt (x : Option ℚ) (c : ℚ) : Bool :=
  match x with
  | none => false
  | some v => decide (c < v)

/-- `query_1_trip_distance_ranges` (lines 66-79): each
`COUNT(CASE WHEN p THEN 1 END)` counts the filtered rows on which `p` is
TRUE (a CASE with no ELSE yields NULL on non-TRUE conditions, and COUNT
ignores NULLs). -/
def query_1_trip_distance_ranges (trips : List Trip) : Q1Result :=
  let f := trips.filter q1Filter
  ⟨(f.filter (fun t => distLe t.trip_distance 1)).length,
   (f.filter (fun t => distGtLe t.trip_distance 1 3)).length,
   (f.filter (fun t => distGtLe t.trip_distance 3 7)).length,
   (f.filter (fun t => distGtLe t.trip_distance 7 10)).length,
   (f.filter (fun t => distGt t.trip_distance 10)).length⟩

/-- The single result row of query 2: a pickup day (NULL for the group of
rows with NULL pickup) and that group's MAX(trip_distance). -/
structure Q2Row where
  pickup_day : Option ℤ
  longest_trip : Option ℚ
deriving DecidableEq, Repr

/-- `DATE(lpep_pickup_datetime)` of a row: NULL on NULL input. -/
def pickupDay (t : Trip) : Option ℤ :=
  t.lpep_pickup_datetime.map Timestamp.day

/-- The SQL `MAX` aggregate over a nullable numeric column: it ignores
NULL inputs and is NULL when every input is NULL (or there is none). -/
def sqlMax : List (Option ℚ) → Option ℚ
  | [] => none
  | none :: rest => sqlMax rest
  | some q :: rest =>
    match sqlMax rest with
    | none => some q
    | some m => some (max q m)

/-- The distinct `GROUP BY DATE(lpep_pickup_datetime)` keys, in order of
first appearance. -/
def groupKeys (trips : List Trip) : List (Option ℤ) :=
  (trips.map pickupDay).dedup

/-- `MAX(trip_distance)` within one pickup-day group. -/
def groupMax (trips : List Trip) (k : Option ℤ) : Option ℚ :=
  sqlMax ((trips.filter (fun t => pickupDay t == k)).map Trip.trip_distance)

/-- The strict order `ORDER BY longest_trip DESC` sorts by: in postgres a
descending key places NULLs first, so a NULL aggregate ranks strictly above
every non-NULL one. -/
def descAbove : Option ℚ → Option ℚ → Bool
  | none, none => false
  | none, some _ => true
  | some _, none => false
  | some a, some b => decide (b < a)

/-- `query_2_longest_trip_day` (lines 81-92): one aggregated row per
pickup-day group, `ORDER BY longest_trip DESC LIMIT 1`.  Among rows with
equal keys postgres may return any one; this model keeps the
earliest-appearing group, one legitimate outcome, and the theorems below
rely only on the maximality of the returned row. -/
def query_2_longest_trip_day (trips : List Trip) : List Q2Row :=
  match groupKeys trips with
  | [] => []
  | k :: ks =>
    [ks.foldl
      (fun best k2 =>
        if descAbove (groupMax trips k2) best.longest_trip then
          ⟨k2, groupMax trips k2⟩
        else best)
      ⟨k, groupMax trips k⟩]

/-- A valid datetime text of the CSV's pickup/dropoff columns, in parsed
form: whole seconds since the epoch and fractional nanoseconds.  pandas
`to_datetime` (lines 29-30, 45-46) parses such text — e.g. ISO text with up
to nine fractional-second digits — into a nanosecond-resolution
`Timestamp`. -/
structure CsvDatetime where
  secs : ℤ
  fracNs : ℕ
deriving DecidableEq, Repr

/-- The nanosecond value `pd.to_datetime` produces for the parsed text. -/
def pd_to_datetime (d : CsvDatetime) : ℤ :=
  d.secs * 1000000000 + d.fracNs

/-- What `to_sql` stores for that value: `DataFrame.to_sql` converts a
`datetime64[ns]` column to Python `datetime` objects (microsecond
resolution, truncating sub-microsecond digits), and a postgres `timestamp`
column likewise holds microseconds. -/
def storedMicros (d : CsvDatetime) : ℤ :=
  d.secs * 1000000 + d.fracNs / 1000

/-- The wall-clock instant (in nanoseconds) parsed back from the stored
timestamp. -/
def storedWallClockNs (d : CsvDatetime) : ℤ :=
  storedMicros d * 1000

/-! ### Helper lemmas about chunking -/

theorem chunksOfAux_nil {α : Type} (C k : ℕ) :
    chunksOfAux C k ([] : List α) = [] := by
  cases k <;> simp [chunksOfAux]

theorem chunksOfAux_fuel {α : Type} {C : ℕ} (hC : 0 < C) :
    ∀ (k k2 : ℕ) (l : List α), l.length ≤ k → l.length ≤ k2 →
      chunksOfAux C k l = chunksOfAux C k2 l := by
  intro k
  induction k with
  | zero =>
    intro k2 l h1 _
    have hl : l = [] := List.eq_nil_of_length_eq_zero (Nat.le_zero.mp h1)
    subst hl
    simp [chunksOfAux_nil]
  | succ k ih =>
    intro k2 l h1 h2
    cases l with
    | nil => simp [chunksOfAux_nil]
    | cons a t =>
      cases k2 with
      | zero => simp at h2
      | succ k2 =>
        simp only [chunksOfAux, List.isEmpty_cons, Bool.false_eq_true,
          if_false]
        congr 1
        apply ih
        · simp only [List.length_drop, List.length_cons]
          simp only [List.length_cons] at h1
          omega
        · simp only [List.length_drop, List.length_cons]
          simp only [List.length_cons] at h2
          omega

theorem chunksOfAux_join {α : Type} {C : ℕ} (hC : 0 < C) :
    ∀ (k : ℕ) (l : List α), l.length ≤ k → (chunksOfAux C k l).flatten = l := by
  intro k
  induction k with
  | zero =>
    intro l h1
    have hl : l = [] := List.eq_nil_of_length_eq_zero (Nat.le_zero.mp h1)
    subst hl
    simp [chunksOfAux_nil]
  | succ k ih =>
    intro l h1
    cases l with
    | nil => simp [chunksOfAux_nil]
    | cons a t =>
      simp only [chunksOfAux, List.isEmpty_cons, Bool.false_eq_true,
        if_false, List.flatten_cons]
      rw [ih]
      · exact List.take_append_drop C (a :: t)
      · simp only [List.length_drop, List.length_cons]
        simp only [List.length_cons] at h1
        omega

theorem pdChunks_join {α : Type} {C : ℕ} (hC : 0 < C) (l : List α) :
    (pdChunks C l).flatten = l := by
  unfold pdChunks
  by_cases h : l.isEmpty
  · rw [List.isEmpty_iff] at h
    subst h
    simp
  · simp only [h, Bool.false_eq_true, if_false]
    exact chunksOfAux_join hC _ _ le_rfl

theorem pdChunks_ne_nil {α : Type} (C : ℕ) (l : List α) :
    pdChunks C l ≠ [] := by
  unfold pdChunks
  cases l with
  | nil => simp
  | cons b t => simp [chunksOfAux]

theorem chunksOfAux_step {α : Type} {C : ℕ} (hC : 0 < C) (k : ℕ)
    (l : List α) (hl : l ≠ []) (hk : l.length ≤ k) :
    chunksOfAux C k l =
      l.take C :: chunksOfAux C (l.length - C) (l.drop C) := by
  cases k with
  | zero =>
    cases l with
    | nil => exact absurd rfl hl
    | cons a t => simp at hk
  | succ k =>
    cases l with
    | nil => exact absurd rfl hl
    | cons a t =>
      simp only [chunksOfAux, List.isEmpty_cons, Bool.false_eq_true,
        if_false]
      congr 1
      apply chunksOfAux_fuel hC
      · simp only [List.length_drop, List.length_cons]
        simp only [List.length_cons] at hk
        omega
      · simp [List.length_drop]

theorem pdChunks_250000 {α : Type} (l : List α) (hl : l.length = 250000) :
    (pdChunks 100000 l).map List.length = [100000, 100000, 50000] := by
  have hC : 0 < 100000 := by norm_num
  have h0 : l ≠ [] := by
    intro h
    rw [h] at hl
    simp at hl
  have hne : l.isEmpty = false := by
    cases l with
    | nil => exact absurd rfl h0
    | cons a t => rfl
  have h1 : (List.drop 100000 l).length = 150000 := by
    simp [List.length_drop, hl]
  have h01 : List.drop 100000 l ≠ [] := by
    intro h
    rw [h] at h1
    simp at h1
  have h2 : (List.drop 100000 (List.drop 100000 l)).length = 50000 := by
    rw [List.length_drop, h1]
  have h02 : List.drop 100000 (List.drop 100000 l) ≠ [] := by
    intro h
    rw [h] at h2
    simp at h2
  unfold pdChunks
  rw [hne]
  simp only [Bool.false_eq_true, if_false]
  rw [chunksOfAux_step hC l.length l h0 le_rfl, hl]
  have e1 : (250000 : ℕ) - 100000 = 150000 := by norm_num
  rw [e1, chunksOfAux_step hC 150000 (List.drop 100000 l) h01 (le_of_eq h1),
    h1]
  have e2 : (150000 : ℕ) - 100000 = 50000 := by norm_num
  rw [e2, chunksOfAux_step hC 50000 _ h02 (le_of_eq h2), h2]
  have e3 : (50000 : ℕ) - 100000 = 0 := by norm_num
  rw [e3]
  simp only [chunksOfAux, List.map_cons, List.map_nil, List.length_take,
    hl, h1, h2]
  norm_num

/-! ### Helper lemmas about the loader -/

theorem loadLoop_spec {α : Type} (cols : List String)
    (wF : ℕ → Option String) (hwF : ∀ k, wF k = none) :
    ∀ (chunks : List (List (ℕ × α))) (k : ℕ) (st : RunState α),
      loadLoop cols wF (chunks.map .ok) k st =
        .ok ⟨⟨st.table.columns,
              st.table.rows ++ chunks.flatten.map (fun p => (some p.1, p.2))⟩,
             st.writes ++ chunks.map (fun ch => ⟨.append, ch.length⟩),
             st.progressLines + chunks.length, true⟩ := by
  intro chunks
  induction chunks with
  | nil =>
    intro k st
    simp [loadLoop]
  | cons c rest ih =>
    intro k st
    simp only [List.map_cons, loadLoop, hwF]
    rw [ih]
    simp [to_sql, List.map_append, List.append_assoc, List.flatten_cons]
    omega

theorem loadLoop_ok_finished {α : Type} (cols : List String)
    (wF : ℕ → Option String) :
    ∀ (s : List (Except String (List (ℕ × α)))) (k : ℕ)
      (st st' : RunState α),
      loadLoop cols wF s k st = .ok st' → st'.finished = true := by
  intro s
  induction s with
  | nil =>
    intro k st st' h
    simp only [loadLoop, Except.ok.injEq] at h
    rw [← h]
  | cons e rest ih =>
    intro k st st' h
    cases e with
    | error msg => simp [loadLoop] at h
    | ok c =>
      simp only [loadLoop] at h
      cases hw : wF k with
      | some m =>
        rw [hw] at h
        simp at h
      | none =>
        rw [hw] at h
        exact ih _ _ _ h

theorem loadLoop_ne_stop {α : Type} (cols : List String)
    (wF : ℕ → Option String) :
    ∀ (s : List (Except String (List (ℕ × α)))) (k : ℕ) (st : RunState α),
      loadLoop cols wF s k st ≠ .error .stopIteration := by
  intro s
  induction s with
  | nil =>
    intro k st
    simp [loadLoop]
  | cons e rest ih =>
    intro k st
    cases e with
    | error msg => simp [loadLoop]
    | ok c =>
      simp only [loadLoop]
      cases hw : wF k with
      | some m => simp
      | none => exact ih _ _

theorem loadLoop_error_of_mem {α : Type} (cols : List String)
    (wF : ℕ → Option String) :
    ∀ (s : List (Except String (List (ℕ × α)))) (k : ℕ) (st : RunState α)
      (msg : String), Except.error msg ∈ s →
      ∃ m, loadLoop cols wF s k st = .error (.other m) := by
  intro s
  induction s with
  | nil =>
    intro k st msg hmem
    simp at hmem
  | cons e rest ih =>
    intro k st msg hmem
    cases e with
    | error msg2 => exact ⟨msg2, by simp [loadLoop]⟩
    | ok c =>
      have hmem2 : Except.error msg ∈ rest := by
        rcases List.mem_cons.mp hmem with h | h
        · exact absurd h (by simp)
        · exact h
      simp only [loadLoop]
      cases hw : wF k with
      | some m => exact ⟨m, by simp⟩
      | none => exact ih _ _ _ hmem2

theorem runLoadTaxi_spec {α : Type} {C : ℕ} (hC : 0 < C)
    (cols : List String) (csv : List α) (prior : Option (Table α)) :
    runLoadTaxi C cols csv prior =
      .ok ⟨⟨"index" :: cols, csv.enum.map (fun p => (some p.1, p.2))⟩,
           ⟨.replace, 0⟩ ::
             (pdChunks C csv.enum).map (fun ch => ⟨.append, ch.length⟩),
           (pdChunks C csv.enum).length - 1, true⟩ := by
  have hne := pdChunks_ne_nil C csv.enum
  have hj := pdChunks_join hC csv.enum
  rcases hch : pdChunks C csv.enum with _ | ⟨c0, rest⟩
  · exact absurd hch hne
  · rw [hch] at hj
    simp only [List.flatten_cons] at hj
    unfold runLoadTaxi csvNexts load_taxi_data
    rw [hch]
    simp only [List.map_cons, noFault]
    rw [loadLoop_spec cols noFault (fun _ => rfl)]
    simp [to_sql, ← hj, List.map_append]

/-! ### Helper lemmas about query 1 -/

theorem q1_buckets (l : List Trip) :
    (l.filter (fun t => distLe t.trip_distance 1)).length
      + (l.filter (fun t => distGtLe t.trip_distance 1 3)).length
      + (l.filter (fun t => distGtLe t.trip_distance 3 7)).length
      + (l.filter (fun t => distGtLe t.trip_distance 7 10)).length
      + (l.filter (fun t => distGt t.trip_distance 10)).length
      = (l.filter (fun t => t.trip_distance.isSome)).length := by
  induction l with
  | nil => rfl
  | cons t l ih =>
    rcases hd : t.trip_distance with _ | q
    · have b1 : distLe t.trip_distance 1 = false := by rw [hd]; rfl
      have b2 : distGtLe t.trip_distance 1 3 = false := by rw [hd]; rfl
      have b3 : distGtLe t.trip_distance 3 7 = false := by rw [hd]; rfl
      have b4 : distGtLe t.trip_distance 7 10 = false := by rw [hd]; rfl
      have b5 : distGt t.trip_distance 10 = false := by rw [hd]; rfl
      have hsome : t.trip_distance.isSome = false := by rw [hd]; rfl
      simp only [List.filter_cons, b1, b2, b3, b4, b5, hsome,
        Bool.false_eq_true, if_false]
      exact ih
    · have hsome : t.trip_distance.isSome = true := by rw [hd]; rfl
      rcases le_or_lt q 1 with h1 | h1
      · have b1 : distLe t.trip_distance 1 = true := by
          rw [hd]; simp [distLe, h1]
        have b2 : distGtLe t.trip_distance 1 3 = false := by
          rw [hd]; simp [distGtLe]; intro h; linarith
        have b3 : distGtLe t.trip_distance 3 7 = false := by
          rw [hd]; simp [distGtLe]; intro h; linarith
        have b4 : distGtLe t.trip_distance 7 10 = false := by
          rw [hd]; simp [distGtLe]; intro h; linarith
        have b5 : distGt t.trip_distance 10 = false := by
          rw [hd]; simp [distGt]; linarith
        simp only [List.filter_cons, b1, b2, b3, b4, b5, hsome,
          Bool.false_eq_true, if_false, if_true, List.length_cons]
        omega
      · rcases le_or_lt q 3 with h2 | h2
        · have b1 : distLe t.trip_distance 1 = false := by
            rw [hd]; simp [distLe]; linarith
          have b2 : distGtLe t.trip_distance 1 3 = true := by
            rw [hd]; simp [distGtLe, h1, h2]
          have b3 : distGtLe t.trip_distance 3 7 = false := by
            rw [hd]; simp [distGtLe]; intro h; linarith
          have b4 : distGtLe t.trip_distance 7 10 = false := by
            rw [hd]; simp [distGtLe]; intro h; linarith
          have b5 : distGt t.trip_distance 10 = false := by
            rw [hd]; simp [distGt]; linarith
          simp only [List.filter_cons, b1, b2, b3, b4, b5, hsome,
            Bool.false_eq_true, if_false, if_true, List.length_cons]
          omega
        · rcases le_or_lt q 7 with h3 | h3
          · have b1 : distLe t.trip_distance 1 = false := by
              rw [hd]; simp [distLe]; linarith
            have b2 : distGtLe t.trip_distance 1 3 = false := by
              rw [hd]; simp [distGtLe]; intro h; linarith
            have b3 : distGtLe t.trip_distance 3 7 = true := by
              rw [hd]; simp [distGtLe, h2, h3]
            have b4 : distGtLe t.trip_distance 7 10 = false := by
              rw [hd]; simp [distGtLe]; intro h; linarith
            have b5 : distGt t.trip_distance 10 = false := by
              rw [hd]; simp [distGt]; linarith
            simp only [List.filter_cons, b1, b2, b3, b4, b5, hsome,
              Bool.false_eq_true, if_false, if_true, List.length_cons]
            omega
          · rcases le_or_lt q 10 with h4 | h4
            · have b1 : distLe t.trip_distance 1 = false := by
                rw [hd]; simp [distLe]; linarith
              have b2 : distGtLe t.trip_distance 1 3 = false := by
                rw [hd]; simp [distGtLe]; intro h; linarith
              have b3 : distGtLe t.trip_distance 3 7 = false := by
                rw [hd]; simp [distGtLe]; intro h; linarith
              have b4 : distGtLe t.trip_distance 7 10 = true := by
                rw [hd]; simp [distGtLe, h3, h4]
              have b5 : distGt t.trip_distance 10 = false := by
                rw [hd]; simp [distGt]; linarith
              simp only [List.filter_cons, b1, b2, b3, b4, b5, hsome,
                Bool.false_eq_true, if_false, if_true, List.length_cons]
              omega
            · have b1 : distLe t.trip_distance 1 = false := by
                rw [hd]; simp [distLe]; linarith
              have b2 : distGtLe t.trip_distance 1 3 = false := by
                rw [hd]; simp [distGtLe]; intro h; linarith
              have b3 : distGtLe t.trip_distance 3 7 = false := by
                rw [hd]; simp [distGtLe]; intro h; linarith
              have b4 : distGtLe t.trip_distance 7 10 = false := by
                rw [hd]; simp [distGtLe]; intro h; linarith
              have b5 : distGt t.trip_distance 10 = true := by
                rw [hd]; simp [distGt]; linarith
              simp only [List.filter_cons, b1, b2, b3, b4, b5, hsome,
                Bool.false_eq_true, if_false, if_true, List.length_cons]
              omega

/-! ### Helper lemmas about query 2 -/

theorem sqlMax_eq_none :
    ∀ (l : List (Option ℚ)), sqlMax l = none → ∀ q : ℚ, some q ∉ l := by
  intro l
  induction l with
  | nil =>
    intro _ q hq
    simp at hq
  | cons o rest ih =>
    intro h q hq
    cases o with
    | none =>
      simp only [sqlMax] at h
      rcases List.mem_cons.mp hq with h2 | h2
      · exact Option.noConfusion h2
      · exact ih h q h2
    | some q2 =>
      simp only [sqlMax] at h
      cases hr : sqlMax rest with
      | none => rw [hr] at h; exact Option.noConfusion h
      | some m => rw [hr] at h; exact Option.noConfusion h

theorem sqlMax_mem :
    ∀ (l : List (Option ℚ)) (m : ℚ), sqlMax l = some m → some m ∈ l := by
  intro l
  induction l with
  | nil =>
    intro m h
    simp [sqlMax] at h
  | cons o rest ih =>
    intro m h
    cases o with
    | none =>
      simp only [sqlMax] at h
      exact List.mem_cons_of_mem _ (ih m h)
    | some q =>
      simp only [sqlMax] at h
      cases hr : sqlMax rest with
      | none =>
        rw [hr] at h
        simp only [Option.some.injEq] at h
        rw [← h]
        exact List.mem_cons_self _ _
      | some m2 =>
        rw [hr] at h
        simp only [Option.some.injEq] at h
        rcases max_choice q m2 with hc | hc
        · rw [hc] at h
          rw [← h]
          exact List.mem_cons_self _ _
        · rw [hc] at h
          rw [← h]
          exact List.mem_cons_of_mem _ (ih m2 hr)

theorem sqlMax_le_of_mem :
    ∀ (l : List (Option ℚ)) (q m : ℚ), some q ∈ l → sqlMax l = some m →
      q ≤ m := by
  intro l
  induction l with
  | nil =>
    intro q m hq _
    simp at hq
  | cons o rest ih =>
    intro q m hq h
    cases o with
    | none =>
      simp only [sqlMax] at h
      rcases List.mem_cons.mp hq with h2 | h2
      · exact Option.noConfusion h2
      · exact ih q m h2 h
    | some q2 =>
      simp only [sqlMax] at h
      rcases List.mem_cons.mp hq with h2 | h2
      · have hq2 : q2 = q := by
          injection h2.symm
        subst hq2
        cases hr : sqlMax rest with
        | none =>
          rw [hr] at h
          simp only [Option.some.injEq] at h
          exact le_of_eq h
        | some m2 =>
          rw [hr] at h
          simp only [Option.some.injEq] at h
          rw [← h]
          exact le_max_left _ _
      · cases hr : sqlMax rest with
        | none => exact absurd h2 (sqlMax_eq_none rest hr q)
        | some m2 =>
          rw [hr] at h
          simp only [Option.some.injEq] at h
          rw [← h]
          exact (ih q m2 h2 hr).trans (le_max_right _ _)

theorem sqlMax_isSome_of_mem (l : List (Option ℚ)) (q : ℚ)
    (hq : some q ∈ l) : ∃ m, sqlMax l = some m := by
  cases h : sqlMax l with
  | none => exact absurd hq (sqlMax_eq_none l h q)
  | some m => exact ⟨m, rfl⟩

theorem descAbove_irrefl (a : Option ℚ) : descAbove a a = false := by
  cases a with
  | none => rfl
  | some q => simp [descAbove]

theorem descAbove_asymm {a b : Option ℚ} (h : descAbove a b = true) :
    descAbove b a = false := by
  cases a <;> cases b <;> simp_all [descAbove] <;> linarith

theorem descAbove_false_trans {a b c : Option ℚ}
    (h1 : descAbove a b = false) (h2 : descAbove b c = false) :
    descAbove a c = false := by
  cases a <;> cases b <;> cases c <;> simp_all [descAbove] <;> linarith

theorem q2_fold_spec (trips : List Trip) :
    ∀ (ks : List (Option ℤ)) (b : Q2Row),
      ∃ r : Q2Row,
        ks.foldl
          (fun best k2 =>
            if descAbove (groupMax trips k2) best.longest_trip then
              ⟨k2, groupMax trips k2⟩
            else best) b = r ∧
        (r = b ∨ ∃ k ∈ ks, r = ⟨k, groupMax trips k⟩) ∧
        descAbove b.longest_trip r.longest_trip = false ∧
        ∀ k2 ∈ ks, descAbove (groupMax trips k2) r.longest_trip = false := by
  intro ks
  induction ks with
  | nil =>
    intro b
    exact ⟨b, rfl, Or.inl rfl, descAbove_irrefl _, by simp⟩
  | cons k2 ks ih =>
    intro b
    simp only [List.foldl_cons]
    by_cases hc : descAbove (groupMax trips k2) b.longest_trip = true
    · rw [if_pos hc]
      obtain ⟨r, hr, hshape, hle, hall⟩ := ih ⟨k2, groupMax trips k2⟩
      have hle2 : descAbove (groupMax trips k2) r.longest_trip = false := hle
      refine ⟨r, hr, ?_, ?_, ?_⟩
      · rcases hshape with h | ⟨k, hk, hkr⟩
        · exact Or.inr ⟨k2, List.mem_cons_self _ _, h⟩
        · exact Or.inr ⟨k, List.mem_cons_of_mem _ hk, hkr⟩
      · exact descAbove_false_trans (descAbove_asymm hc) hle2
      · intro k3 hk3
        rcases List.mem_cons.mp hk3 with h | h
        · rw [h]
          exact hle2
        · exact hall k3 h
    · rw [if_neg hc]
      have hc2 : descAbove (groupMax trips k2) b.longest_trip = false :=
        Bool.eq_false_iff.mpr hc
      obtain ⟨r, hr, hshape, hle, hall⟩ := ih b
      refine ⟨r, hr, ?_, hle, ?_⟩
      · rcases hshape with h | ⟨k, hk, hkr⟩
        · exact Or.inl h
        · exact Or.inr ⟨k, List.mem_cons_of_mem _ hk, hkr⟩
      · intro k3 hk3
        rcases List.mem_cons.mp hk3 with h | h
        · rw [h]
          exact descAbove_false_trans hc2 hle
        · exact hall k3 h

theorem load_taxi_data_cons_err {α : Type} (cols : List String)
    (msg : String) (rest : List (Except String (List (ℕ × α))))
    (wF : ℕ → Option String) (prior : Option (Table α)) :
    load_taxi_data cols (.error msg :: rest) wF prior =
      .error (.other msg) := rfl

theorem load_taxi_data_w0 {α : Type} (cols : List String)
    (first : List (ℕ × α)) (rest : List (Except String (List (ℕ × α))))
    (wF : ℕ → Option String) (prior : Option (Table α)) (m : String)
    (h0 : wF 0 = some m) :
    load_taxi_data cols (.ok first :: rest) wF prior =
      .error (.other m) := by
  simp [load_taxi_data, h0]

theorem load_taxi_data_w1 {α : Type} (cols : List String)
    (first : List (ℕ × α)) (rest : List (Except String (List (ℕ × α))))
    (wF : ℕ → Option String) (prior : Option (Table α)) (m : String)
    (h0 : wF 0 = none) (h1 : wF 1 = some m) :
    load_taxi_data cols (.ok first :: rest) wF prior =
      .error (.other m) := by
  simp [load_taxi_data, h0, h1]

theorem load_taxi_data_cons_ok {α : Type} (cols : List String)
    (first : List (ℕ × α)) (rest : List (Except String (List (ℕ × α))))
    (wF : ℕ → Option String) (prior : Option (Table α))
    (h0 : wF 0 = none) (h1 : wF 1 = none) :
    load_taxi_data cols (.ok first :: rest) wF prior =
      loadLoop cols wF rest 2
        ⟨⟨"index" :: cols, first.map (fun p => (some p.1, p.2))⟩,
         [⟨.replace, 0⟩, ⟨.append, first.length⟩], 0, false⟩ := by
  simp [load_taxi_data, h0, h1, to_sql]

theorem enum_map_none {α : Type} (csv : List α) :
    csv.enum.map (fun p => ((none : Option ℕ), p.2)) =
      csv.map (fun a => (none, a)) := by
  have h1 : csv.enum.map (fun p => ((none : Option ℕ), p.2)) =
      (csv.enum.map Prod.snd).map (fun a => (none, a)) := by
    rw [List.map_map]
    rfl
  rw [h1, List.enum_map_snd]

theorem load_zones_data_spec {α : Type} (cols : List String) (csv : List α)
    (prior : Option (Table α)) :
    load_zones_data cols csv prior =
      ⟨cols, csv.map (fun a => (none, a))⟩ := by
  show (⟨cols, csv.enum.map (fun p => ((none : Option ℕ), p.2))⟩ :
      Table α) = _
  rw [enum_map_none]

theorem filter_append_map {α : Type} (chunks : List (List (ℕ × α))) :
    ((chunks.map (fun ch => (⟨.append, ch.length⟩ : WriteEvent))).filter
        (fun w => w.mode == WriteMode.append)) =
      chunks.map (fun ch => (⟨.append, ch.length⟩ : WriteEvent)) := by
  induction chunks with
  | nil => rfl
  | cons c cs ih =>
    simp only [List.map_cons, List.filter_cons]
    rw [if_pos]
    · rw [ih]
    · rfl

theorem groupMax_attained (trips : List Trip)
    (hall : ∀ t ∈ trips, t.trip_distance.isSome = true) (k : Option ℤ)
    (hk : k ∈ groupKeys trips) :
    ∃ mk, groupMax trips k = some mk ∧
      ∃ t ∈ trips, pickupDay t = k ∧ t.trip_distance = some mk := by
  have hmem : ∃ t ∈ trips, pickupDay t = k := by
    have h1 : k ∈ trips.map pickupDay := List.mem_dedup.mp hk
    obtain ⟨t, ht, hpk⟩ := List.mem_map.mp h1
    exact ⟨t, ht, hpk⟩
  obtain ⟨t, ht, hpk⟩ := hmem
  obtain ⟨qt, hqt⟩ := Option.isSome_iff_exists.mp (hall t ht)
  have htf : t ∈ trips.filter (fun t => pickupDay t == k) :=
    List.mem_filter.mpr ⟨ht, beq_iff_eq.mpr hpk⟩
  have hqmem : some qt ∈
      (trips.filter (fun t => pickupDay t == k)).map Trip.trip_distance := by
    rw [← hqt]
    exact List.mem_map_of_mem _ htf
  obtain ⟨mk, hmk⟩ := sqlMax_isSome_of_mem _ qt hqmem
  refine ⟨mk, hmk, ?_⟩
  have hmmem := sqlMax_mem _ mk hmk
  obtain ⟨t2, ht2f, ht2d⟩ := List.mem_map.mp hmmem
  have ht2 := List.mem_filter.mp ht2f
  exact ⟨t2, ht2.1, beq_iff_eq.mp ht2.2, ht2d⟩

theorem runLoadTaxi_250000 {α : Type} (cols : List String) (csv : List α)
    (prior : Option (Table α)) (hl : csv.length = 250000) :
    runWrites (runLoadTaxi 100000 cols csv prior) =
      some [⟨.replace, 0⟩, ⟨.append, 100000⟩, ⟨.append, 100000⟩,
        ⟨.append, 50000⟩] ∧
    runRowCount (runLoadTaxi 100000 cols csv prior) = some 250000 := by
  have hC : (0 : ℕ) < 100000 := by norm_num
  have hl2 : csv.enum.length = 250000 := by
    rw [List.enum_length]
    exact hl
  have hmap := pdChunks_250000 csv.enum hl2
  rw [runLoadTaxi_spec hC cols csv prior]
  have hw : (pdChunks 100000 csv.enum).map
      (fun ch => (⟨.append, ch.length⟩ : WriteEvent)) =
      [⟨.append, 100000⟩, ⟨.append, 100000⟩, ⟨.append, 50000⟩] := by
    have h2 : (pdChunks 100000 csv.enum).map
        (fun ch => (⟨.append, ch.length⟩ : WriteEvent)) =
        ((pdChunks 100000 csv.enum).map List.length).map
          (fun n => (⟨.append, n⟩ : WriteEvent)) := by
      rw [List.map_map]
      rfl
    rw [h2, hmap]
    rfl
  constructor
  · simp only [runWrites, Except.toOption, Option.map, hw]
  · simp only [runRowCount, Except.toOption, Option.map, List.length_map,
      hl2]

/-! ### Claim theorems -/

/-- C1 (confirmed): for every input CSV with `N` data rows and every chunk
size `C ≥ 1` (in particular the configured `C = 100000`), a fault-free
`load_taxi_data` run produces a target table containing exactly `N` rows;
this includes the single-chunk case `N < C` and the header-only case
`N = 0`, where pandas yields one empty first chunk instead of raising. -/
theorem C1_row_count {α : Type} (C : ℕ) (hC : 0 < C) (cols : List String)
    (csv : List α) (prior : Option (Table α)) :
    runRowCount (runLoadTaxi C cols csv prior) = some csv.length := by
  rw [runLoadTaxi_spec hC cols csv prior]
  simp only [runRowCount, Except.toOption, Option.map, List.length_map,
    List.enum_length]

/-- Witness for C1 at the header-only CSV (`N = 0`) with the configured
chunk size 100000. -/
theorem C1_row_count_witness :
    runRowCount (runLoadTaxi 100000 ["VendorID"] ([] : List ℕ) none) =
      some 0 :=
  C1_row_count 100000 (by decide) ["VendorID"] [] none

/-- C3 counterexample: running `load_taxi_data` twice in succession on the
same 1-row CSV leaves the table with 1 row, not the 2 rows the claim
predicts: the second run's `df.head(n=0).to_sql(..., if_exists='replace')`
drops everything the first run wrote before the appends start. -/
theorem C3_counterexample :
    runRowCount (runLoadTaxi 100000 ["trip_distance"] [(5 : ℕ)]
        ((runLoadTaxi 100000 ["trip_distance"] [(5 : ℕ)] none).toOption.map
          RunState.table)) = some 1 ∧
    runRowCount (runLoadTaxi 100000 ["trip_distance"] [(5 : ℕ)]
        ((runLoadTaxi 100000 ["trip_distance"] [(5 : ℕ)] none).toOption.map
          RunState.table)) ≠ some 2 := by
  constructor
  · rfl
  · decide

/-- C3 (amended): `load_taxi_data` is idempotent in its effect on the
target table: a second run over the same `N`-row CSV — indeed a run over
any prior table state — leaves exactly `N` rows and the very same run
outcome, because every run starts with a replacing `head(n=0).to_sql`
that drops the previous contents before the appends. -/
theorem C3_idempotent {α : Type} (C : ℕ) (hC : 0 < C) (cols : List String)
    (csv : List α) (prior : Option (Table α)) (st1 : RunState α)
    (h1 : runLoadTaxi C cols csv prior = .ok st1) :
    runRowCount (runLoadTaxi C cols csv (some st1.table)) =
      some csv.length ∧
    runLoadTaxi C cols csv (some st1.table) =
      runLoadTaxi C cols csv prior := by
  constructor
  · rw [runLoadTaxi_spec hC cols csv (some st1.table)]
    simp only [runRowCount, Except.toOption, Option.map, List.length_map,
      List.enum_length]
  · rw [runLoadTaxi_spec hC cols csv (some st1.table),
      runLoadTaxi_spec hC cols csv prior]

/-- Witness for C3's amended statement on a concrete 1-row CSV. -/
theorem C3_idempotent_witness :
    runRowCount (runLoadTaxi 1 ([] : List String) [(0 : ℕ)]
        (some ⟨["index"], [(some 0, 0)]⟩)) = some 1 ∧
    runLoadTaxi 1 ([] : List String) [(0 : ℕ)]
        (some ⟨["index"], [(some 0, 0)]⟩) =
      runLoadTaxi 1 ([] : List String) [(0 : ℕ)] none :=
  C3_idempotent 1 (by decide) [] [(0 : ℕ)] none
    ⟨⟨["index"], [(some 0, 0)]⟩, [⟨.replace, 0⟩, ⟨.append, 1⟩], 0, true⟩
    (by rfl)

/-- C4 counterexample: on a 250000-row CSV with chunk size 100000 the run
performs 4 `to_sql` write operations against the database (the zero-row
schema-creating replace of line 33 plus three chunk appends), not the 3 the
claim states. -/
theorem C4_counterexample :
    (runWrites (runLoadTaxi 100000 ([] : List String)
        (List.range 250000) none)).map List.length = some 4 ∧
    some (4 : ℕ) ≠ some 3 := by
  have h := runLoadTaxi_250000 ([] : List String) (List.range 250000) none
    (by simp)
  constructor
  · rw [h.1]
    rfl
  · decide

/-- C4 (amended): loading a 250000-row CSV with the configured 100000-row
chunk size performs exactly 4 `to_sql` write operations — one zero-row
schema-creating replace plus three chunk appends (two full chunks of
100000 rows and one partial chunk of 50000 rows) — and leaves the table
with a final row count of exactly 250000. -/
theorem C4_writes {α : Type} (cols : List String) (csv : List α)
    (prior : Option (Table α)) (hl : csv.length = 250000) :
    runWrites (runLoadTaxi 100000 cols csv prior) =
      some [⟨.replace, 0⟩, ⟨.append, 100000⟩, ⟨.append, 100000⟩,
        ⟨.append, 50000⟩] ∧
    (runWrites (runLoadTaxi 100000 cols csv prior)).map List.length =
      some 4 ∧
    (runWrites (runLoadTaxi 100000 cols csv prior)).map
        (fun ws => (ws.filter (fun w => w.mode == WriteMode.append)).length) =
      some 3 ∧
    runRowCount (runLoadTaxi 100000 cols csv prior) = some 250000 := by
  obtain ⟨hw, hr⟩ := runLoadTaxi_250000 cols csv prior hl
  refine ⟨hw, ?_, ?_, hr⟩
  · rw [hw]
    rfl
  · rw [hw]
    rfl

/-- Witness for C4's amended statement on the concrete 250000-row CSV
`List.range 250000`. -/
theorem C4_writes_witness :
    runWrites (runLoadTaxi 100000 ([] : List String)
        (List.range 250000) none) =
      some [⟨.replace, 0⟩, ⟨.append, 100000⟩, ⟨.append, 100000⟩,
        ⟨.append, 50000⟩] ∧
    (runWrites (runLoadTaxi 100000 ([] : List String)
        (List.range 250000) none)).map List.length = some 4 ∧
    (runWrites (runLoadTaxi 100000 ([] : List String)
        (List.range 250000) none)).map
        (fun ws => (ws.filter (fun w => w.mode == WriteMode.append)).length) =
      some 3 ∧
    runRowCount (runLoadTaxi 100000 ([] : List String)
        (List.range 250000) none) = some 250000 :=
  C4_writes [] (List.range 250000) none (by simp)

/-- C5 (confirmed): whatever the prior state of the zone table, after
`load_zones_data` the table holds exactly the rows of the new CSV (with
the CSV's columns and no pandas index column): nothing of any previous
load survives and nothing is appended. -/
theorem C5_zones_replace {α : Type} (cols : List String) (csv : List α)
    (prior : Option (Table α)) :
    load_zones_data cols csv prior =
      ⟨cols, csv.map (fun a => (none, a))⟩ :=
  load_zones_data_spec cols csv prior

/-- C8 counterexample: on a single-chunk CSV the run writes one chunk but
prints zero per-chunk elapsed-time progress lines — the first chunk's
append at line 36 precedes the loop and is never timed or reported. -/
theorem C8_counterexample :
    runLoadTaxi 100000 ([] : List String) [(3 : ℕ)] none =
      .ok ⟨⟨["index"], [(some 0, 3)]⟩, [⟨.replace, 0⟩, ⟨.append, 1⟩],
        0, true⟩ ∧
    (0 : ℕ) ≠ 1 := by
  constructor
  · rfl
  · decide

/-- C8 (amended): a fault-free `load_taxi_data` run iterates until the
source is exhausted (it terminates normally with the finish message) and
prints an elapsed-time progress line for every chunk after the first: with
`n` chunks written it prints `n - 1` progress lines, the first chunk being
written before the timed loop. -/
theorem C8_progress {α : Type} (C : ℕ) (hC : 0 < C) (cols : List String)
    (csv : List α) (prior : Option (Table α)) :
    ∃ st, runLoadTaxi C cols csv prior = .ok st ∧ st.finished = true ∧
      (st.writes.filter (fun w => w.mode == WriteMode.append)).length =
        (pdChunks C csv.enum).length ∧
      st.progressLines = (pdChunks C csv.enum).length - 1 := by
  refine ⟨_, runLoadTaxi_spec hC cols csv prior, rfl, ?_, rfl⟩
  rw [List.filter_cons]
  have hrep : ((⟨WriteMode.replace, 0⟩ : WriteEvent).mode ==
      WriteMode.append) = false := rfl
  rw [hrep]
  simp only [Bool.false_eq_true, if_false]
  rw [filter_append_map]
  exact List.length_map _ _

/-- Witness for C8's amended statement: a 3-row CSV with chunk size 2 has
2 chunks, hence 1 progress line. -/
theorem C8_progress_witness :
    ∃ st, runLoadTaxi 2 ([] : List String) [(10 : ℕ), 20, 30] none =
        .ok st ∧ st.finished = true ∧
      (st.writes.filter (fun w => w.mode == WriteMode.append)).length =
        (pdChunks 2 ([(10 : ℕ), 20, 30]).enum).length ∧
      st.progressLines = (pdChunks 2 ([(10 : ℕ), 20, 30]).enum).length - 1 :=
  C8_progress 2 (by decide) [] [10, 20, 30] none

/-- C10 (confirmed): the trip table written by `load_taxi_data` carries one
extra leading `"index"` column holding the pandas row index of each chunk
(`to_sql` default `index=True`), while the zone table written by
`load_zones_data` has exactly the CSV's columns and no index values
(`index=False`). -/
theorem C10_index_columns {α : Type} (C : ℕ) (hC : 0 < C)
    (cols : List String) (csv : List α) (prior : Option (Table α))
    (colsz : List String) (csvz : List α) (priorz : Option (Table α)) :
    (∃ st, runLoadTaxi C cols csv prior = .ok st ∧
      st.table.columns = "index" :: cols ∧
      st.table.rows = csv.enum.map (fun p => (some p.1, p.2))) ∧
    (load_zones_data colsz csvz priorz).columns = colsz ∧
    (load_zones_data colsz csvz priorz).rows =
      csvz.map (fun a => (none, a)) := by
  refine ⟨⟨_, runLoadTaxi_spec hC cols csv prior, rfl, rfl⟩, ?_, ?_⟩
  · rw [load_zones_data_spec]
  · rw [load_zones_data_spec]

/-- Witness for C10 on concrete one-row CSVs. -/
theorem C10_index_columns_witness :
    (∃ st, runLoadTaxi 100000 ["a"] [(7 : ℕ)] none = .ok st ∧
      st.table.columns = "index" :: ["a"] ∧
      st.table.rows = ([(7 : ℕ)]).enum.map (fun p => (some p.1, p.2))) ∧
    (load_zones_data ["LocationID"] [(4 : ℕ)] none).columns =
      ["LocationID"] ∧
    (load_zones_data ["LocationID"] [(4 : ℕ)] none).rows =
      ([(4 : ℕ)]).map (fun a => (none, a)) :=
  C10_index_columns 100000 (by decide) ["a"] [7] none ["LocationID"] [4]
    none

/-- C2 (confirmed): over any stream of `next` outcomes (at least one, as
pandas always yields a first chunk or raises a non-`StopIteration` error
inside `next` itself) and any injected database faults: (1) a normal return
always prints the finish message; (2) the run never propagates
`StopIteration` — exhaustion of the chunk iterator is the one handled
condition and terminates the loop normally; (3) any read or conversion
failure in the stream makes the run propagate a non-`StopIteration`
exception to the caller; (4) with no failures at all the run terminates
normally with the finish message. -/
theorem C2_error_handling {α : Type} (cols : List String)
    (nexts : List (Except String (List (ℕ × α))))
    (wF : ℕ → Option String) (prior : Option (Table α))
    (hne : nexts ≠ []) :
    (∀ st, load_taxi_data cols nexts wF prior = .ok st →
      st.finished = true) ∧
    load_taxi_data cols nexts wF prior ≠ .error .stopIteration ∧
    (∀ msg, Except.error msg ∈ nexts →
      ∃ m, load_taxi_data cols nexts wF prior = .error (.other m)) ∧
    ((∃ chunks : List (List (ℕ × α)), nexts = chunks.map .ok) →
      (∀ k, wF k = none) →
      ∃ st, load_taxi_data cols nexts wF prior = .ok st ∧
        st.finished = true) := by
  rcases nexts with _ | ⟨e, rest⟩
  · exact absurd rfl hne
  refine ⟨?_, ?_, ?_, ?_⟩
  · intro st h
    cases e with
    | error msg =>
      rw [load_taxi_data_cons_err] at h
      exact Except.noConfusion h
    | ok first =>
      cases hw0 : wF 0 with
      | some m =>
        rw [load_taxi_data_w0 cols first rest wF prior m hw0] at h
        exact Except.noConfusion h
      | none =>
        cases hw1 : wF 1 with
        | some m =>
          rw [load_taxi_data_w1 cols first rest wF prior m hw0 hw1] at h
          exact Except.noConfusion h
        | none =>
          rw [load_taxi_data_cons_ok cols first rest wF prior hw0 hw1] at h
          exact loadLoop_ok_finished cols wF rest 2 _ st h
  · cases e with
    | error msg =>
      rw [load_taxi_data_cons_err]
      simp
    | ok first =>
      cases hw0 : wF 0 with
      | some m =>
        rw [load_taxi_data_w0 cols first rest wF prior m hw0]
        simp
      | none =>
        cases hw1 : wF 1 with
        | some m =>
          rw [load_taxi_data_w1 cols first rest wF prior m hw0 hw1]
          simp
        | none =>
          rw [load_taxi_data_cons_ok cols first rest wF prior hw0 hw1]
          exact loadLoop_ne_stop cols wF rest 2 _
  · intro msg hmem
    cases e with
    | error msg2 => exact ⟨msg2, load_taxi_data_cons_err _ _ _ _ _⟩
    | ok first =>
      have hmem2 : Except.error msg ∈ rest := by
        rcases List.mem_cons.mp hmem with h | h
        · exact absurd h (by simp)
        · exact h
      cases hw0 : wF 0 with
      | some m => exact ⟨m, load_taxi_data_w0 cols first rest wF prior m hw0⟩
      | none =>
        cases hw1 : wF 1 with
        | some m =>
          exact ⟨m, load_taxi_data_w1 cols first rest wF prior m hw0 hw1⟩
        | none =>
          rw [load_taxi_data_cons_ok cols first rest wF prior hw0 hw1]
          exact loadLoop_error_of_mem cols wF rest 2 _ msg hmem2
  · rintro ⟨chunks, hch⟩ hwf
    cases chunks with
    | nil => exact absurd hch (by simp)
    | cons c cs =>
      simp only [List.map_cons, List.cons.injEq] at hch
      obtain ⟨he, hrest⟩ := hch
      subst he
      subst hrest
      rw [load_taxi_data_cons_ok cols c (cs.map .ok) wF prior (hwf 0)
        (hwf 1)]
      rw [loadLoop_spec cols wF hwf cs 2 _]
      exact ⟨_, rfl, rfl⟩

/-- Witness for C2 on a concrete one-chunk fault-free stream. -/
theorem C2_error_handling_witness :
    (∀ st, load_taxi_data ["a"] [Except.ok [((0 : ℕ), (5 : ℕ))]] noFault
        none = .ok st → st.finished = true) ∧
    load_taxi_data ["a"] [Except.ok [((0 : ℕ), (5 : ℕ))]] noFault none ≠
      .error .stopIteration ∧
    (∀ msg, Except.error msg ∈
        ([Except.ok [((0 : ℕ), (5 : ℕ))]] :
          List (Except String (List (ℕ × ℕ)))) →
      ∃ m, load_taxi_data ["a"] [Except.ok [((0 : ℕ), (5 : ℕ))]] noFault
        none = .error (.other m)) ∧
    ((∃ chunks : List (List (ℕ × ℕ)),
        ([Except.ok [((0 : ℕ), (5 : ℕ))]] :
          List (Except String (List (ℕ × ℕ)))) = chunks.map .ok) →
      (∀ k, noFault k = none) →
      ∃ st, load_taxi_data ["a"] [Except.ok [((0 : ℕ), (5 : ℕ))]] noFault
          none = .ok st ∧ st.finished = true) :=
  C2_error_handling ["a"] [Except.ok [((0 : ℕ), (5 : ℕ))]] noFault none
    (by simp)

/-- C6 counterexample: a table with one trip inside the query month whose
`trip_distance` is NULL: the row satisfies the month filter but is counted
by none of the five `COUNT(CASE ...)` buckets, so the five counts sum to 0
while the filtered row count is 1. -/
theorem C6_counterexample :
    (query_1_trip_distance_ranges
        [⟨some ⟨18175, 0⟩, some ⟨18175, 0⟩, none⟩]).trips_up_to_1_mile
      + (query_1_trip_distance_ranges
          [⟨some ⟨18175, 0⟩, some ⟨18175, 0⟩, none⟩]).trips_1_to_3_miles
      + (query_1_trip_distance_ranges
          [⟨some ⟨18175, 0⟩, some ⟨18175, 0⟩, none⟩]).trips_3_to_7_miles
      + (query_1_trip_distance_ranges
          [⟨some ⟨18175, 0⟩, some ⟨18175, 0⟩, none⟩]).trips_7_to_10_miles
      + (query_1_trip_distance_ranges
          [⟨some ⟨18175, 0⟩, some ⟨18175, 0⟩, none⟩]).trips_over_10_miles
      = 0 ∧
    (([⟨some ⟨18175, 0⟩, some ⟨18175, 0⟩, none⟩] : List Trip).filter
        q1Filter).length = 1 := by
  constructor
  · rfl
  · rfl

/-- C6 (amended): the five distance-bucket counts of
`query_1_trip_distance_ranges` sum to the number of rows that satisfy the
fixed-month filter and have a non-NULL `trip_distance`; rows with NULL
distance pass the filter but fall into no bucket. -/
theorem C6_bucket_sum (trips : List Trip) :
    (query_1_trip_distance_ranges trips).trips_up_to_1_mile
      + (query_1_trip_distance_ranges trips).trips_1_to_3_miles
      + (query_1_trip_distance_ranges trips).trips_3_to_7_miles
      + (query_1_trip_distance_ranges trips).trips_7_to_10_miles
      + (query_1_trip_distance_ranges trips).trips_over_10_miles
      = ((trips.filter q1Filter).filter
          (fun t => t.trip_distance.isSome)).length := by
  unfold query_1_trip_distance_ranges
  exact q1_buckets (trips.filter q1Filter)

/-- C7 counterexample: the valid datetime text
"1970-01-01 00:00:00.000000001" (one nanosecond past the epoch second)
parses under `pd.to_datetime` to nanosecond 1, but the stored
microsecond-resolution timestamp reads back as nanosecond 0: the round
trip is not lossless for every valid input. -/
theorem C7_counterexample :
    pd_to_datetime ⟨0, 1⟩ = 1 ∧ storedWallClockNs ⟨0, 1⟩ = 0 ∧
    storedWallClockNs ⟨0, 1⟩ ≠ pd_to_datetime ⟨0, 1⟩ := by
  refine ⟨by decide, by decide, by decide⟩

/-- C7 (amended): the two datetime columns are stored as timestamp values
that parse back to the original wall-clock instant for every valid input
whose fractional seconds are at most microsecond-precise; pandas parses at
nanosecond resolution and the stored timestamp holds microseconds, so
sub-microsecond digits are truncated. -/
theorem C7_roundtrip (d : CsvDatetime) (h : d.fracNs % 1000 = 0) :
    storedWallClockNs d = pd_to_datetime d := by
  unfold storedWallClockNs storedMicros pd_to_datetime
  omega

/-- Witness for C7's amended statement at a microsecond-precise input. -/
theorem C7_roundtrip_witness :
    storedWallClockNs ⟨5, 123000⟩ = pd_to_datetime ⟨5, 123000⟩ :=
  C7_roundtrip ⟨5, 123000⟩ (by decide)

/-- C9 counterexample: a non-empty table whose 2019-10-01 group has only a
NULL `trip_distance` and whose 2019-10-02 group has distance 5.  The NULL
`MAX` aggregate of the first group sorts first under
`ORDER BY longest_trip DESC` (postgres places NULLs first on a descending
key), so the returned row carries `longest_trip` NULL — not the table
maximum 5 — and names a day that does not contain the longest trip. -/
theorem C9_counterexample :
    query_2_longest_trip_day
        [⟨some ⟨18170, 0⟩, some ⟨18170, 0⟩, none⟩,
         ⟨some ⟨18171, 0⟩, some ⟨18171, 0⟩, some 5⟩] =
      [⟨some 18170, none⟩] ∧
    sqlMax (([⟨some ⟨18170, 0⟩, some ⟨18170, 0⟩, none⟩,
         ⟨some ⟨18171, 0⟩, some ⟨18171, 0⟩, some 5⟩] : List Trip).map
        Trip.trip_distance) = some 5 ∧
    (none : Option ℚ) ≠ some 5 := by
  refine ⟨by decide, by decide, by decide⟩

/-- C9 (amended): for every non-empty trips table in which every row has a
non-NULL `trip_distance`, `query_2_longest_trip_day` returns exactly one
row, its `longest_trip` equals `MAX(trip_distance)` over the whole table,
and the returned pickup day contains a trip of exactly that distance. -/
theorem C9_longest_trip (trips : List Trip) (hne : trips ≠ [])
    (hall : ∀ t ∈ trips, t.trip_distance.isSome = true) :
    ∃ r : Q2Row, query_2_longest_trip_day trips = [r] ∧
      r.longest_trip = sqlMax (trips.map Trip.trip_distance) ∧
      ∃ t ∈ trips, pickupDay t = r.pickup_day ∧
        t.trip_distance = r.longest_trip := by
  have hgkne : groupKeys trips ≠ [] := by
    unfold groupKeys
    rw [Ne, List.dedup_eq_nil, List.map_eq_nil]
    exact hne
  rcases hgk : groupKeys trips with _ | ⟨k0, ks⟩
  · exact absurd hgk hgkne
  have hq : query_2_longest_trip_day trips =
      [ks.foldl (fun best k2 =>
        if descAbove (groupMax trips k2) best.longest_trip then
          ⟨k2, groupMax trips k2⟩
        else best) ⟨k0, groupMax trips k0⟩] := by
    unfold query_2_longest_trip_day
    rw [hgk]
  obtain ⟨r, hr, hshape, hle0, hmax⟩ :=
    q2_fold_spec trips ks ⟨k0, groupMax trips k0⟩
  rw [hr] at hq
  have hkstar : ∃ kstar ∈ groupKeys trips,
      r = ⟨kstar, groupMax trips kstar⟩ := by
    rcases hshape with h | ⟨k, hk, hkr⟩
    · exact ⟨k0, by rw [hgk]; exact List.mem_cons_self _ _, h⟩
    · exact ⟨k, by rw [hgk]; exact List.mem_cons_of_mem _ hk, hkr⟩
  obtain ⟨kstar, hkmem, hkr⟩ := hkstar
  have hmaxall : ∀ k ∈ groupKeys trips,
      descAbove (groupMax trips k) r.longest_trip = false := by
    intro k hk
    rw [hgk] at hk
    rcases List.mem_cons.mp hk with h | h
    · rw [h]
      exact hle0
    · exact hmax k h
  obtain ⟨mk, hmk, tstar, htstar, hpkstar, hdstar⟩ :=
    groupMax_attained trips hall kstar hkmem
  obtain ⟨t0, ht0⟩ := List.exists_mem_of_ne_nil trips hne
  obtain ⟨q0, hq0⟩ := Option.isSome_iff_exists.mp (hall t0 ht0)
  have hq0mem : some q0 ∈ trips.map Trip.trip_distance := by
    rw [← hq0]
    exact List.mem_map_of_mem _ ht0
  obtain ⟨m, hm⟩ := sqlMax_isSome_of_mem _ q0 hq0mem
  have hmkm : mk ≤ m := by
    apply sqlMax_le_of_mem _ mk m _ hm
    rw [← hdstar]
    exact List.mem_map_of_mem _ htstar
  have hmmk : m ≤ mk := by
    obtain ⟨tm, htm, hdm⟩ := List.mem_map.mp (sqlMax_mem _ m hm)
    have hkm : pickupDay tm ∈ groupKeys trips := by
      unfold groupKeys
      exact List.mem_dedup.mpr (List.mem_map_of_mem _ htm)
    obtain ⟨mkm, hmkm2, _⟩ := groupMax_attained trips hall (pickupDay tm) hkm
    have hm_le : m ≤ mkm := by
      apply sqlMax_le_of_mem _ m mkm _ hmkm2
      rw [← hdm]
      apply List.mem_map_of_mem
      exact List.mem_filter.mpr ⟨htm, beq_iff_eq.mpr rfl⟩
    have hda := hmaxall (pickupDay tm) hkm
    rw [hkr] at hda
    rw [hmkm2] at hda
    have hda2 : descAbove (some mkm) (groupMax trips kstar) = false := hda
    rw [hmk] at hda2
    have hmkmk : mkm ≤ mk := by
      simpa [descAbove, decide_eq_false_iff_not, not_lt] using hda2
    exact hm_le.trans hmkmk
  have hmeq : mk = m := le_antisymm hmkm hmmk
  refine ⟨r, hq, ?_, ?_⟩
  · rw [hkr]
    show groupMax trips kstar = sqlMax (trips.map Trip.trip_distance)
    rw [hmk, hm, hmeq]
  · refine ⟨tstar, htstar, ?_, ?_⟩
    · rw [hkr]
      exact hpkstar
    · rw [hkr]
      show tstar.trip_distance = groupMax trips kstar
      rw [hmk]
      exact hdstar

/-- Witness for C9's amended statement on a concrete one-row table. -/
theorem C9_longest_trip_witness :
    ∃ r : Q2Row, query_2_longest_trip_day
        [⟨some ⟨18170, 0⟩, some ⟨18170, 0⟩, some 2⟩] = [r] ∧
      r.longest_trip = sqlMax
        (([⟨some ⟨18170, 0⟩, some ⟨18170, 0⟩, some 2⟩] : List Trip).map
          Trip.trip_distance) ∧
      ∃ t ∈ ([⟨some ⟨18170, 0⟩, some ⟨18170, 0⟩, some 2⟩] : List Trip),
        pickupDay t = r.pickup_day ∧ t.trip_distance = r.longest_trip :=
  C9_longest_trip [⟨some ⟨18170, 0⟩, some ⟨18170, 0⟩, some 2⟩] (by simp)
    (by decide)

end DeZoom
